import Mathlib

/-!
Verification of the imap-codec core: the lexical primitives of
src/imap-codec/src/rfc3501/core.rs (number, nz_number, quoted, literal,
string, nstring), the section grammar of src/src/parse/section.rs, and the
response domain model with its encoder from src/src/types/response.rs,
embedded shallowly over byte lists (`List Nat`, one entry per octet).

Parsers follow the nom streaming model used by the source: a parse either
succeeds with the unconsumed remainder and a value, or stops with one of
three outcomes: `incomplete` (a valid token needs more bytes), `error`
(recoverable, the malformed outcome, used by `alt` to try the next branch)
and `failure` (unrecoverable; `literal` uses it to request a continuation
handshake).
-/

/-- The three error outcomes of the nom streaming framework of the source:
`incomplete` embeds `nom::Err::Incomplete`, `error` embeds `nom::Err::Error`
and `failure` embeds `nom::Err::Failure`. -/
inductive PErr : Type
  | incomplete
  | error
  | failure
deriving DecidableEq

/-- Result of a parser: error outcome, or remainder plus parsed value. -/
abbrev PRes (α : Type) : Type := Except PErr (List Nat × α)

/-- Equality of parser outcomes is decidable. -/
instance exceptDecEq {ε α : Type} [DecidableEq ε] [DecidableEq α] :
    DecidableEq (Except ε α) := fun x y =>
  match x, y with
  | .ok a, .ok b => if h : a = b then isTrue (by rw [h]) else isFalse (by simp [h])
  | .error e, .error f => if h : e = f then isTrue (by rw [h]) else isFalse (by simp [h])
  | .ok _, .error _ => isFalse (by simp)
  | .error _, .ok _ => isFalse (by simp)

/-- Byte list of an ASCII string literal. -/
def bytes (s : String) : List Nat := s.toList.map Char.toNat

/-- Decimal rendering of an unsigned integer, as the Rust Display of u32. -/
def natRender (n : Nat) : List Nat := (Nat.toDigits 10 n).map Char.toNat

/-- Join byte strings with a separator (utils::join and utils::join_bytes:
single separator between elements, none trailing). -/
def joinBytes (xs : List (List Nat)) (sep : List Nat) : List Nat :=
  List.intercalate sep xs

/-- Sequence a parse result into a continuation taking remainder and value
(the `?` operator on nom results: every error outcome propagates). -/
def pseq {α β : Type} (r : PRes α) (f : List Nat → α → PRes β) : PRes β :=
  match r with
  | .error e => .error e
  | .ok (rem, a) => f rem a

/-- Map on the parsed value (nom combinator `map`). -/
def pmap {α β : Type} (r : PRes α) (f : α → β) : PRes β :=
  match r with
  | .error e => .error e
  | .ok (rem, a) => .ok (rem, f a)

/-- nom `alt` step: a recoverable `error` tries the next branch; `incomplete`
and `failure` are returned immediately. -/
def orElse2 {α : Type} (r : PRes α) (f : Unit → PRes α) : PRes α :=
  match r with
  | .error .error => f ()
  | other => other

-- ----- character predicates (src/imap-codec/src/rfc3501/core.rs) -----

/-- ABNF `CHAR = %x01-7F` (abnf_core is_CHAR). -/
def is_CHAR (b : Nat) : Bool := 1 ≤ b && b ≤ 0x7f

/-- ABNF `CTL = %x00-1F / %x7F` (abnf_core is_CTL). -/
def is_CTL (b : Nat) : Bool := b ≤ 0x1f || b == 0x7f

/-- ABNF `DIGIT = %x30-39`. -/
def isDigitB (b : Nat) : Bool := 48 ≤ b && b ≤ 57

/-- Modelled from the spec: `list-wildcards` are the two list-wildcard
characters `%` and `*` (rfc3501/mailbox.rs is_list_wildcards is not under
src/; the spec lists "list-wildcard characters" among atom-specials). -/
def is_list_wildcards (b : Nat) : Bool := b == 37 || b == 42

/-- `quoted-specials = DQUOTE / "\"`. -/
def is_quoted_specials (b : Nat) : Bool := b == 34 || b == 92

/-- `TEXT-CHAR = %x01-09 / %x0B-0C / %x0E-7F`. -/
def is_text_char (b : Nat) : Bool :=
  (1 ≤ b && b ≤ 9) || (11 ≤ b && b ≤ 12) || (14 ≤ b && b ≤ 0x7f)

/-- Any TEXT-CHAR except quoted-specials. -/
def is_any_text_char_except_quoted_specials (b : Nat) : Bool :=
  is_text_char b && !is_quoted_specials b

/-- `resp-specials = "]"`. -/
def is_resp_specials (b : Nat) : Bool := b == 93

/-- `atom-specials = "(" / ")" / "{" / SP / CTL / list-wildcards /
quoted-specials / resp-specials`. -/
def is_atom_specials (b : Nat) : Bool :=
  b == 40 || b == 41 || b == 123 || b == 32 || is_CTL b || is_list_wildcards b ||
    is_quoted_specials b || is_resp_specials b

/-- `ATOM-CHAR = <any CHAR except atom-specials>`. -/
def is_atom_char (b : Nat) : Bool := is_CHAR b && !is_atom_specials b

/-- `ASTRING-CHAR = ATOM-CHAR / resp-specials`. -/
def is_astring_char (b : Nat) : Bool := is_atom_char b || is_resp_specials b

/-- `CHAR8 = %x01-ff`: any octet except NUL. -/
def is_char8 (b : Nat) : Bool := b != 0

-- ----- nom streaming primitives -----

/-- nom streaming `tag`: byte-exact match of `t` at the head of the input;
an input that is a proper matching short read is `incomplete`, a byte
mismatch is a recoverable `error`. -/
def tagP : List Nat → List Nat → PRes Unit
  | [], input => .ok (input, ())
  | _ :: _, [] => .error .incomplete
  | t :: ts, c :: cs => if c = t then tagP ts cs else .error .error

/-- ASCII lower casing of one byte. -/
def lowerB (b : Nat) : Nat := if 65 ≤ b ∧ b ≤ 90 then b + 32 else b

/-- nom streaming `tag_no_case` over ASCII bytes. -/
def tag_no_caseP : List Nat → List Nat → PRes Unit
  | [], input => .ok (input, ())
  | _ :: _, [] => .error .incomplete
  | t :: ts, c :: cs => if lowerB c = lowerB t then tag_no_caseP ts cs else .error .error

/-- nom streaming `take_while1`: the maximal nonempty run of bytes
satisfying `p`. Empty input, or a run reaching the end of input, is
`incomplete` (more bytes could extend the run); an empty run is `error`. -/
def take_while1P (p : Nat → Bool) (input : List Nat) : PRes (List Nat) :=
  match input with
  | [] => .error .incomplete
  | c :: _ =>
    if p c then
      let run := input.takeWhile p
      if run.length = input.length then .error .incomplete
      else .ok (input.drop run.length, run)
    else .error .error

/-- Numeric value of an ASCII digit run. -/
def digitsVal (ds : List Nat) : Nat := ds.foldl (fun a c => 10 * a + (c - 48)) 0

/-- `number = 1*DIGIT`, an unsigned 32-bit integer: the digit run is taken by
streaming `digit1` (take_while1 over DIGIT), then fed to str::parse::<u32>,
whose overflow failure is a recoverable `error` through map_res; the inner
from_utf8 always succeeds on a digit run. -/
def number (input : List Nat) : PRes Nat :=
  pseq (take_while1P isDigitB input) fun rem ds =>
    if digitsVal ds ≤ 4294967295 then .ok (rem, digitsVal ds) else .error .error

/-- `nz-number = digit-nz *DIGIT`: a `number` whose value 0 is rejected with
a recoverable `error` (nom ErrorKind::Verify). -/
def nz_number (input : List Nat) : PRes Nat :=
  pseq (number input) fun rem n =>
    if n = 0 then .error .error else .ok (rem, n)

/-- The byte count consumed by
`escaped(take_while1(is_any_text_char_except_quoted_specials), '\\', one_of "\\\"")`
in streaming mode, one byte at a time: a normal byte is consumed and the loop
continues; a backslash must be followed by one of the two quoted-specials
(otherwise `error`), consuming two bytes; any other byte ends the match
there; reaching the end of input inside the loop is `incomplete`, exactly as
the run-based loop of nom, which returns `incomplete` when take_while1 runs
to the end of input, when the input ends at a control byte, and when nothing
follows a consumed escape pair. -/
def escapedConsumed : List Nat → Except PErr Nat
  | [] => .error .incomplete
  | c :: rest =>
    if is_any_text_char_except_quoted_specials c then
      (escapedConsumed rest).map (· + 1)
    else if c = 92 then
      match rest with
      | [] => .error .incomplete
      | e :: rest2 =>
        if e == 92 || e == 34 then (escapedConsumed rest2).map (· + 2)
        else .error .error
    else .ok 0

/-- Modelled from the spec: utils::unescape_quoted (src/imap-codec/src/utils.rs
is not under src/). Decoding replaces each escape pair with its literal
character; other bytes pass through. -/
def unescape_quoted : List Nat → List Nat
  | [] => []
  | [c] => [c]
  | c :: d :: rest =>
    if c = 92 then d :: unescape_quoted rest
    else c :: unescape_quoted (d :: rest)

/-- `quoted = DQUOTE *QUOTED-CHAR DQUOTE`: an opening DQUOTE, the escaped run
(whose bytes are all ASCII, so the map_res from_utf8 in the source always
succeeds), a closing DQUOTE; the value is the unescaped content. -/
def quoted (input : List Nat) : PRes (List Nat) :=
  match input with
  | [] => .error .incomplete
  | c :: rest =>
    if c = 34 then
      match escapedConsumed rest with
      | .error e => .error e
      | .ok n =>
        match rest.drop n with
        | [] => .error .incomplete
        | d :: rem =>
          if d = 34 then .ok (rem, unescape_quoted (rest.take n)) else .error .error
    else .error .error

/-- `literal = "{" number "}" CRLF *CHAR8`: after the announcement and CRLF,
an empty remaining buffer is the unrecoverable `failure` signalling that a
continuation handshake is required; otherwise streaming `take(number)` reads
exactly `number` bytes (`incomplete` when fewer are buffered) and
LiteralRef::from_bytes rejects a NUL byte in the payload with a recoverable
`error` (the from_bytes check is the CHAR8 validation, is_char8; the
LiteralRef type itself lives in imap-types, not under src/). -/
def literal (input : List Nat) : PRes (List Nat) :=
  pseq (tagP [123] input) fun r1 _ =>
  pseq (number r1) fun r2 n =>
  pseq (tagP [125] r2) fun r3 _ =>
  pseq (tagP [13, 10] r3) fun remaining _ =>
  if remaining = [] then .error .failure
  else if remaining.length < n then .error .incomplete
  else
    let data := remaining.take n
    if data.all is_char8 then .ok (remaining.drop n, data)
    else .error .error

/-- `nil = "NIL"`, case-insensitive. -/
def nilP (input : List Nat) : PRes Unit := tag_no_caseP (bytes "NIL") input

/-- An IMAP string value: quoted form (unescaped content) or literal bytes. -/
inductive IString : Type
  | quoted (s : List Nat)
  | literal (b : List Nat)
deriving DecidableEq

/-- `string = quoted / literal`. -/
def stringP (input : List Nat) : PRes IString :=
  orElse2 (pmap (quoted input) IString.quoted)
    (fun _ => pmap (literal input) IString.literal)

/-- `nstring = string / nil`: an optional string, `none` for NIL. -/
abbrev NString : Type := Option IString

/-- `nstring` parser. -/
def nstringP (input : List Nat) : PRes NString :=
  orElse2 (pmap (stringP input) some)
    (fun _ => pmap (nilP input) (fun _ => (none : NString)))

-- ----- section grammar (src/src/parse/section.rs) -----

/-- The part specifiers produced by the section grammar
(types/data_items.rs PartSpecifier, shape fixed by its use in
src/src/parse/section.rs). -/
inductive PartSpecifier : Type
  | partNumber (n : Nat)
  | header
  | headerFields (fields : List (List Nat))
  | headerFieldsNot (fields : List (List Nat))
  | text
  | mime
deriving DecidableEq

/-- Section values built by the section grammar (types/data_items.rs Section,
shape fixed by its use in src/src/parse/section.rs); a part path is a list of
non-zero numbers. -/
inductive SectionSpec : Type
  | header (part : Option (List Nat))
  | headerFields (part : Option (List Nat)) (fields : List (List Nat))
  | headerFieldsNot (part : Option (List Nat)) (fields : List (List Nat))
  | text (part : Option (List Nat))
  | mime (part : List Nat)
  | part (part : List Nat)
deriving DecidableEq

/-- Modelled from the spec: `sp`, a single space (src/src/parse module root is
not under src/). -/
def spP (input : List Nat) : PRes Unit := tagP [32] input

/-- Space-separated token loop after the first token of a parenthesized list:
each round consumes one SP and one nonempty token run and the list is closed
by `)`. The fuel argument, passed in as the length of the remaining input,
only bounds the recursion: every round consumes at least two bytes, so the
bound is never hit before the input decides the outcome. -/
def sepTokens (p : Nat → Bool) : Nat → List Nat → List (List Nat) → PRes (List (List Nat))
  | _, [], _ => .error .incomplete
  | _, 41 :: rest, acc => .ok (rest, acc.reverse)
  | Nat.succ fuel, 32 :: rest, acc =>
    pseq (take_while1P p rest) fun rem nm => sepTokens p fuel rem (nm :: acc)
  | 0, 32 :: _, _ => .error .error
  | _, _ :: _, _ => .error .error

/-- Modelled from the spec: `header_list` (src/src/parse/header.rs is not
under src/): a parenthesized, space-separated, nonempty list of header field
names, as in the example `(SUBJECT)`; a name is a nonempty run of
ASTRING-CHARs. -/
def header_list (input : List Nat) : PRes (List (List Nat)) :=
  pseq (tagP [40] input) fun r1 _ =>
  pseq (take_while1P is_astring_char r1) fun r2 nm =>
  sepTokens is_astring_char r2.length r2 [nm]

/-- `section-msgtext = "HEADER" / "HEADER.FIELDS" [".NOT"] SP header-list /
"TEXT"`: alternatives tried in source order, `HEADER.FIELDS.NOT` first,
then `HEADER.FIELDS`, then `HEADER`, then `TEXT`. -/
def section_msgtext (input : List Nat) : PRes PartSpecifier :=
  orElse2
    (pseq (tag_no_caseP (bytes "HEADER.FIELDS.NOT") input) fun r1 _ =>
      pseq (spP r1) fun r2 _ =>
        pseq (header_list r2) fun r3 hl => .ok (r3, PartSpecifier.headerFieldsNot hl))
    (fun _ => orElse2
      (pseq (tag_no_caseP (bytes "HEADER.FIELDS") input) fun r1 _ =>
        pseq (spP r1) fun r2 _ =>
          pseq (header_list r2) fun r3 hl => .ok (r3, PartSpecifier.headerFields hl))
      (fun _ => orElse2
        (pmap (tag_no_caseP (bytes "HEADER") input) fun _ => PartSpecifier.header)
        (fun _ => pmap (tag_no_caseP (bytes "TEXT") input) fun _ => PartSpecifier.text)))

-- ----- response domain model (src/src/types/response.rs) -----

/-- Modelled from the spec: the leaf types Charset, Capability, Flag,
FlagNameAttribute, Atom and Mailbox (types/core.rs, types/flag.rs,
types/mailbox.rs and friends are not under src/) render on the wire as their
textual name, so they are carried here as their wire bytes and displayed
verbatim. -/
abbrev WireName : Type := List Nat

/-- Response codes (the bracketed annotations of status lines). -/
inductive Code : Type
  | alert
  | badCharset (charsets : List WireName)
  | capability (caps : List WireName)
  | parse
  | permanentFlags (flags : List WireName)
  | readOnly
  | readWrite
  | tryCreate
  | uidNext (n : Nat)
  | uidValidity (n : Nat)
  | unseen (n : Nat)
  | other (atom : WireName) (params : Option WireName)
  | referral (url : WireName)
deriving DecidableEq

/-- The Display rendering of a Code (fmt in src/src/types/response.rs):
BADCHARSET lists its charsets only when nonempty, Other renders the atom and
the optional trailing parameters. -/
def codeDisplay : Code → List Nat
  | .alert => bytes "ALERT"
  | .badCharset cs =>
    if cs.isEmpty then bytes "BADCHARSET"
    else bytes "BADCHARSET (" ++ joinBytes cs [32] ++ [41]
  | .capability caps => bytes "CAPABILITY " ++ joinBytes caps [32]
  | .parse => bytes "PARSE"
  | .permanentFlags fs => bytes "PERMANENTFLAGS (" ++ joinBytes fs [32] ++ [41]
  | .readOnly => bytes "READ-ONLY"
  | .readWrite => bytes "READ-WRITE"
  | .tryCreate => bytes "TRYCREATE"
  | .uidNext n => bytes "UIDNEXT " ++ natRender n
  | .uidValidity n => bytes "UIDVALIDITY " ++ natRender n
  | .unseen n => bytes "UNSEEN " ++ natRender n
  | .other a ps =>
    match ps with
    | some p => a ++ [32] ++ p
    | none => a
  | .referral url => bytes "REFERRAL " ++ url

/-- Status responses: OK, NO and BAD carry an optional tag; PREAUTH and BYE
never carry a tag at all; all carry an optional code and the response text. -/
inductive Status : Type
  | ok (tag : Option WireName) (code : Option Code) (text : List Nat)
  | no (tag : Option WireName) (code : Option Code) (text : List Nat)
  | bad (tag : Option WireName) (code : Option Code) (text : List Nat)
  | preauth (code : Option Code) (text : List Nat)
  | bye (code : Option Code) (text : List Nat)
deriving DecidableEq

/-- Builder Status::greeting. -/
def statusGreeting (code : Option Code) (text : List Nat) : Status :=
  Status.ok none code text

/-- Builder Status::ok. -/
def statusOk (tag : Option WireName) (code : Option Code) (text : List Nat) : Status :=
  Status.ok tag code text

/-- Builder Status::no. -/
def statusNo (tag : Option WireName) (code : Option Code) (text : List Nat) : Status :=
  Status.no tag code text

/-- Builder Status::bad. -/
def statusBad (tag : Option WireName) (code : Option Code) (text : List Nat) : Status :=
  Status.bad tag code text

/-- Builder Status::preauth. -/
def statusPreauth (code : Option Code) (text : List Nat) : Status :=
  Status.preauth code text

/-- Builder Status::bye. -/
def statusBye (code : Option Code) (text : List Nat) : Status :=
  Status.bye code text

/-- The tag field of a status value (none for PREAUTH and BYE). -/
def Status.tagOf : Status → Option WireName
  | .ok tag _ _ => tag
  | .no tag _ _ => tag
  | .bad tag _ _ => tag
  | .preauth _ _ => none
  | .bye _ _ => none

/-- The code field of a status value. -/
def Status.codeOf : Status → Option Code
  | .ok _ code _ => code
  | .no _ code _ => code
  | .bad _ code _ => code
  | .preauth code _ => code
  | .bye code _ => code

/-- The text field of a status value. -/
def Status.textOf : Status → List Nat
  | .ok _ _ text => text
  | .no _ _ text => text
  | .bad _ _ text => text
  | .preauth _ text => text
  | .bye _ text => text

/-- format_status of the Status serializer: the tag defaults to `*`, then the
status word, the optional bracketed code, the text, CRLF. -/
def format_status (tag : Option WireName) (status : List Nat) (code : Option Code)
    (comment : List Nat) : List Nat :=
  let t := tag.getD [42]
  match code with
  | some c => t ++ [32] ++ status ++ [32, 91] ++ codeDisplay c ++ [93, 32] ++ comment ++ [13, 10]
  | none => t ++ [32] ++ status ++ [32] ++ comment ++ [13, 10]

/-- Codec::serialize for Status. -/
def serializeStatus : Status → List Nat
  | .ok tag code text => format_status tag (bytes "OK") code text
  | .no tag code text => format_status tag (bytes "NO") code text
  | .bad tag code text => format_status tag (bytes "BAD") code text
  | .preauth code text => format_status none (bytes "PREAUTH") code text
  | .bye code text => format_status none (bytes "BYE") code text

/-- The status data items of a STATUS response. -/
inductive StatusItemResponse : Type
  | messages (n : Nat)
  | recent (n : Nat)
  | uidNext (n : Nat)
  | uidValidity (n : Nat)
  | unseen (n : Nat)
deriving DecidableEq

/-- Display of a StatusItemResponse. -/
def statusItemDisplay : StatusItemResponse → List Nat
  | .messages n => bytes "MESSAGES " ++ natRender n
  | .recent n => bytes "RECENT " ++ natRender n
  | .uidNext n => bytes "UIDNEXT " ++ natRender n
  | .uidValidity n => bytes "UIDVALIDITY " ++ natRender n
  | .unseen n => bytes "UNSEEN " ++ natRender n

/-- Command continuation requests. -/
inductive Continuation : Type
  | basic (code : Option Code) (text : List Nat)
  | base64 (data : List Nat)
deriving DecidableEq

/-- Builder Continuation::basic: an empty text is replaced with the single
placeholder character `.`; any other text is stored unchanged. -/
def continuationBasic (code : Option Code) (text : List Nat) : Continuation :=
  if text = [] then Continuation.basic code (bytes ".")
  else Continuation.basic code text

/-- Builder Continuation::base64. -/
def continuationBase64 (data : List Nat) : Continuation :=
  Continuation.base64 data

/-- Codec::serialize for Continuation. -/
def serializeContinuation : Continuation → List Nat
  | .basic (some c) text => bytes "+ [" ++ codeDisplay c ++ bytes "] " ++ text ++ [13, 10]
  | .basic none text => bytes "+ " ++ text ++ [13, 10]
  | .base64 data => bytes "+ " ++ data ++ [13, 10]

/-- Modelled from the spec: the quoted-string encoder (the Quoted serializer
in types/core.rs is not under src/): encoding re-inserts an escape before
every occurrence of the two quoted-specials `"` and `\` found in the content,
and only those. -/
def escape_quoted : List Nat → List Nat
  | [] => []
  | c :: rest =>
    if is_quoted_specials c then 92 :: c :: escape_quoted rest
    else c :: escape_quoted rest

/-- Modelled from the spec: the full quoted-string wire form, a DQUOTE, the
escaped content and a closing DQUOTE. -/
def encode_quoted (s : List Nat) : List Nat := 34 :: (escape_quoted s ++ [34])

/-- Modelled from the spec: wire form of an nstring (the NString serializer
in types/core.rs is not under src/): NIL when absent, otherwise the quoted
form or the length-prefixed literal form. -/
def serializeNString : NString → List Nat
  | none => bytes "NIL"
  | some (.quoted s) => encode_quoted s
  | some (.literal b) => 123 :: (natRender b.length ++ 125 :: 13 :: 10 :: b)

/-- Modelled from the spec: body structure values. types/body.rs is not under
src/ and the inspected encoder never looks inside them (every Body variant is
an unimplemented stub), so the payload carries no observable structure
here. -/
inductive BodyStructure : Type
  | mk
deriving DecidableEq

/-- Modelled from the spec: envelope values; same situation as
BodyStructure. -/
inductive Envelope : Type
  | mk
deriving DecidableEq

/-- Modelled from the spec: the internal-date timestamp; same situation as
BodyStructure. -/
inductive DateTimeFO : Type
  | mk
deriving DecidableEq

/-- The outcome of a Rust serialize call that can hit an unimplemented!()
stub: the stub diverges with a "not implemented" panic. The function type
`fn serialize(&self) -> Vec<u8>` has no error return channel at all, so the
side condition is the only non-value outcome. -/
inductive SerErr : Type
  | notImplemented
deriving DecidableEq

/-- The per-message fetched data items of a FETCH response. -/
inductive DataItemResponse : Type
  | body (st : BodyStructure)
  | bodyExt (sec : Option SectionSpec) (origin : Option Nat) (data : NString)
  | bodyStructure (st : BodyStructure)
  | envelope (env : Envelope)
  | flags (fs : List WireName)
  | internalDate (datetime : DateTimeFO)
  | rfc822 (ns : NString)
  | rfc822Header (ns : NString)
  | rfc822Size (n : Nat)
  | rfc822Text (ns : NString)
  | uid (n : Nat)
deriving DecidableEq

/-- Codec::serialize for DataItemResponse: the Body, BodyExt, BodyStructure,
Envelope and InternalDate arms are unimplemented!() stubs; the Flags arm
renders only the parenthesized flag list, without an item name; the
remaining arms render their item name, a space and the value. -/
def serializeDataItem : DataItemResponse → Except SerErr (List Nat)
  | .body _ => .error .notImplemented
  | .bodyExt _ _ _ => .error .notImplemented
  | .bodyStructure _ => .error .notImplemented
  | .envelope _ => .error .notImplemented
  | .flags fs => .ok ([40] ++ joinBytes fs [32] ++ [41])
  | .internalDate _ => .error .notImplemented
  | .rfc822 ns => .ok (bytes "RFC822 " ++ serializeNString ns)
  | .rfc822Header ns => .ok (bytes "RFC822.HEADER " ++ serializeNString ns)
  | .rfc822Size n => .ok (bytes "RFC822.SIZE " ++ natRender n)
  | .rfc822Text ns => .ok (bytes "RFC822.TEXT " ++ serializeNString ns)
  | .uid n => .ok (bytes "UID " ++ natRender n)

/-- Server data responses. -/
inductive Data : Type
  | capability (caps : List WireName)
  | list (items : List WireName) (delimiter : Option Nat) (mailbox : WireName)
  | lsub (items : List WireName) (delimiter : List Nat) (name : List Nat)
  | status (name : WireName) (items : List StatusItemResponse)
  | search (seqs : List Nat)
  | flags (fs : List WireName)
  | exists_ (n : Nat)
  | recent (n : Nat)
  | expunge (n : Nat)
  | fetch (msg : Nat) (items : List DataItemResponse)
deriving DecidableEq

/-- Serialize each fetch item in order, propagating the first panic, as the
iterator map plus collect of the source does. -/
def serializeItems : List DataItemResponse → Except SerErr (List (List Nat))
  | [] => .ok []
  | it :: its =>
    match serializeDataItem it, serializeItems its with
    | .ok b, .ok bs => .ok (b :: bs)
    | .error e, _ => .error e
    | .ok _, .error e => .error e

/-- Codec::serialize for Data. -/
def serializeData : Data → Except SerErr (List Nat)
  | .capability caps => .ok (bytes "* CAPABILITY " ++ joinBytes caps [32] ++ [13, 10])
  | .list items delimiter mailbox =>
    .ok (bytes "* LIST (" ++ joinBytes items [32] ++ bytes ") " ++
      (match delimiter with
       | some d => [34, d, 34]
       | none => bytes "nil") ++ [32] ++ mailbox ++ [13, 10])
  | .lsub items delimiter name =>
    .ok (bytes "* LSUB (" ++ joinBytes items [32] ++ bytes ") " ++ [34] ++ delimiter ++
      [34, 32] ++ name ++ [13, 10])
  | .status name items =>
    .ok (bytes "* STATUS " ++ name ++ bytes " (" ++
      joinBytes (items.map statusItemDisplay) [32] ++ bytes ")" ++ [13, 10])
  | .search seqs =>
    .ok (if seqs.isEmpty then bytes "* SEARCH" ++ [13, 10]
         else bytes "* SEARCH " ++ joinBytes (seqs.map natRender) [32] ++ [13, 10])
  | .flags fs => .ok (bytes "* FLAGS (" ++ joinBytes fs [32] ++ bytes ")" ++ [13, 10])
  | .exists_ n => .ok (bytes "* " ++ natRender n ++ bytes " EXISTS" ++ [13, 10])
  | .recent n => .ok (bytes "* " ++ natRender n ++ bytes " RECENT" ++ [13, 10])
  | .expunge n => .ok (bytes "* " ++ natRender n ++ bytes " EXPUNGE" ++ [13, 10])
  | .fetch msg items =>
    match serializeItems items with
    | .ok its =>
      .ok (bytes "* " ++ natRender msg ++ bytes " FETCH (" ++ joinBytes its [32] ++
        bytes ")" ++ [13, 10])
    | .error e => .error e

/-- Top-level server responses. -/
inductive Response : Type
  | status (s : Status)
  | data (d : Data)
  | continuation (c : Continuation)
deriving DecidableEq

/-- Codec::serialize for Response: dispatch to the serializer of the
variant. -/
def serializeResponse : Response → Except SerErr (List Nat)
  | .status s => .ok (serializeStatus s)
  | .data d => serializeData d
  | .continuation c => .ok (serializeContinuation c)

-- ----- modelled response-parser fragment (round-trip oracle) -----

/-- Modelled from the spec: a flag token on the wire, an optional leading
backslash followed by atom characters, carried verbatim (the flag grammar of
types/flag.rs and its parser are not under src/). -/
def flagChar (b : Nat) : Bool := is_atom_char b || b == 92

/-- Modelled from the spec: a parenthesized, space-separated flag list as it
appears in FLAGS items, possibly empty. -/
def flagListP (input : List Nat) : PRes (List WireName) :=
  pseq (tagP [40] input) fun r1 _ =>
    match r1 with
    | 41 :: rest => .ok (rest, [])
    | _ => pseq (take_while1P flagChar r1) fun r2 f1 => sepTokens flagChar r2.length r2 [f1]

/-- Modelled from the spec: one data item of a FETCH response line as the
response parser reads it. The response parser
(imap-codec parse::response::response, the parse direction of the round-trip
property) is not under src/; the spec fixes the wire form of each supported
item as its item name, a space and the value: `FLAGS (...)`,
`RFC822.HEADER nstring`, `RFC822.SIZE number`, `RFC822.TEXT nstring`,
`RFC822 nstring`, `UID number`, with the longer RFC822.* names tried before
the bare RFC822 name. The body-structure, envelope and internal-date
sub-grammars are out of the inspected core on both directions. -/
def msg_att_item (input : List Nat) : PRes DataItemResponse :=
  orElse2
    (pseq (tag_no_caseP (bytes "FLAGS") input) fun r1 _ =>
      pseq (spP r1) fun r2 _ =>
        pmap (flagListP r2) DataItemResponse.flags)
    (fun _ => orElse2
      (pseq (tag_no_caseP (bytes "RFC822.HEADER") input) fun r1 _ =>
        pseq (spP r1) fun r2 _ => pmap (nstringP r2) DataItemResponse.rfc822Header)
      (fun _ => orElse2
        (pseq (tag_no_caseP (bytes "RFC822.SIZE") input) fun r1 _ =>
          pseq (spP r1) fun r2 _ => pmap (number r2) DataItemResponse.rfc822Size)
        (fun _ => orElse2
          (pseq (tag_no_caseP (bytes "RFC822.TEXT") input) fun r1 _ =>
            pseq (spP r1) fun r2 _ => pmap (nstringP r2) DataItemResponse.rfc822Text)
          (fun _ => orElse2
            (pseq (tag_no_caseP (bytes "RFC822") input) fun r1 _ =>
              pseq (spP r1) fun r2 _ => pmap (nstringP r2) DataItemResponse.rfc822)
            (fun _ =>
              pseq (tag_no_caseP (bytes "UID") input) fun r1 _ =>
                pseq (spP r1) fun r2 _ => pmap (number r2) DataItemResponse.uid)))))

/-- Wire form of the later names of a header list: each name preceded by one
space. -/
def sepJoin : List (List Nat) → List Nat
  | [] => []
  | nm :: ns => 32 :: (nm ++ sepJoin ns)

-- ----- helper lemmas -----

theorem takeWhile_prepend (p : Nat → Bool) :
    ∀ (ds : List Nat) (b : Nat) (r : List Nat), (∀ c ∈ ds, p c = true) → p b = false →
      (ds ++ b :: r).takeWhile p = ds
  | [], b, r, _, hb => by simp [List.takeWhile_cons, hb]
  | d :: ds, b, r, hds, hb => by
    have hd : p d = true := hds d (by simp)
    simp [List.takeWhile_cons, hd,
      takeWhile_prepend p ds b r (fun c hc => hds c (by simp [hc])) hb]

theorem take_while1P_exact (p : Nat → Bool) (ds : List Nat) (b : Nat) (r : List Nat)
    (hne : ds ≠ []) (hall : ∀ c ∈ ds, p c = true) (hb : p b = false) :
    take_while1P p (ds ++ b :: r) = .ok (b :: r, ds) := by
  obtain ⟨d, ds', hds⟩ := List.exists_cons_of_ne_nil hne
  subst hds
  have hd : p d = true := hall d (by simp)
  have hrun : ((d :: ds') ++ b :: r).takeWhile p = d :: ds' :=
    takeWhile_prepend p _ b r hall hb
  have hdrop : ((d :: ds') ++ b :: r).drop (d :: ds').length = b :: r := List.drop_left _ _
  rw [List.cons_append] at hrun hdrop ⊢
  rw [take_while1P]
  simp only [hd, if_true, hrun, hdrop]
  rw [if_neg (by simp)]

theorem tagP_exact : ∀ (t r : List Nat), tagP t (t ++ r) = .ok (r, ())
  | [], _ => rfl
  | c :: ts, r => by simp [tagP, tagP_exact ts r]

theorem tag_no_caseP_exact : ∀ (t r : List Nat), tag_no_caseP t (t ++ r) = .ok (r, ())
  | [], _ => rfl
  | c :: ts, r => by simp [tag_no_caseP, tag_no_caseP_exact ts r]

theorem number_exact (ds : List Nat) (b : Nat) (r : List Nat)
    (hne : ds ≠ []) (hall : ∀ c ∈ ds, isDigitB c = true) (hb : isDigitB b = false) :
    number (ds ++ b :: r) =
      if digitsVal ds ≤ 4294967295 then .ok (b :: r, digitsVal ds) else .error .error := by
  simp [number, pseq, take_while1P_exact isDigitB ds b r hne hall hb]

theorem literal_eval (ds rst : List Nat)
    (hne : ds ≠ []) (hall : ∀ c ∈ ds, isDigitB c = true)
    (hval : digitsVal ds ≤ 4294967295) :
    literal (123 :: (ds ++ 125 :: 13 :: 10 :: rst)) =
      (if rst = [] then .error .failure
       else if rst.length < digitsVal ds then .error .incomplete
       else if (rst.take (digitsVal ds)).all is_char8 then
         .ok (rst.drop (digitsVal ds), rst.take (digitsVal ds))
       else .error .error) := by
  rw [literal]
  have h1 : tagP [123] (123 :: (ds ++ 125 :: 13 :: 10 :: rst)) =
      .ok (ds ++ 125 :: 13 :: 10 :: rst, ()) := by simp [tagP]
  rw [h1]; simp only [pseq]
  have h2 := number_exact ds 125 (13 :: 10 :: rst) hne hall (by decide)
  rw [if_pos hval] at h2
  rw [h2]
  have h3 : tagP [125] (125 :: 13 :: 10 :: rst) = .ok (13 :: 10 :: rst, ()) := by simp [tagP]
  have h4 : tagP [13, 10] (13 :: 10 :: rst) = .ok (rst, ()) := by simp [tagP]
  simp only [pseq, h3, h4]

/-- Claim C3: once the literal parser has consumed a well-formed length
announcement and its CRLF, an empty remaining buffer yields the distinct
unrecoverable failure outcome (the continuation-request handshake signal),
and a non-empty remaining buffer never yields that outcome. -/
theorem claim_C3_literal_empty_buffer (ds rest : List Nat)
    (hne : ds ≠ []) (hall : ∀ c ∈ ds, isDigitB c = true)
    (hval : digitsVal ds ≤ 4294967295) :
    literal (123 :: (ds ++ 125 :: 13 :: 10 :: ([] : List Nat))) = .error .failure ∧
    (rest ≠ [] → literal (123 :: (ds ++ 125 :: 13 :: 10 :: rest)) ≠ .error .failure) := by
  constructor
  · rw [literal_eval ds [] hne hall hval]; simp
  · intro hrest
    rw [literal_eval ds rest hne hall hval, if_neg hrest]
    by_cases hlt : rest.length < digitsVal ds
    · rw [if_pos hlt]; simp
    · rw [if_neg hlt]
      by_cases hok : (rest.take (digitsVal ds)).all is_char8
      · rw [if_pos hok]; simp
      · rw [if_neg (by simpa using hok)]; simp

theorem claim_C3_witness :
    (([51] : List Nat) ≠ [] ∧ (∀ c ∈ ([51] : List Nat), isDigitB c = true) ∧
      digitsVal [51] ≤ 4294967295) ∧
    literal (123 :: ([51] ++ 125 :: 13 :: 10 :: ([] : List Nat))) = .error .failure ∧
    (([49] : List Nat) ≠ [] →
      literal (123 :: ([51] ++ 125 :: 13 :: 10 :: [49])) ≠ .error .failure) :=
  ⟨by decide, claim_C3_literal_empty_buffer [51] [49] (by decide) (by decide) (by decide)⟩

/-- Claim C4 counterexample: the input consisting of the announcement 0 and
CRLF alone is of the claimed form (at least 0 further bytes follow), yet the
parser returns the unrecoverable handshake failure instead of succeeding
with an empty payload and empty remainder. -/
theorem claim_C4_counterexample :
    literal (bytes "{0}\r\n") = .error .failure ∧
    literal (bytes "{0}\r\n") ≠ .ok ([], []) := by decide

/-- Claim C4 as amended: when the remaining buffer after CRLF is non-empty,
the parser consumes exactly N payload bytes, returning them and the exact
following remainder, whenever no payload byte is NUL; it fails with the
recoverable malformed error (not incomplete) whenever any of the N payload
bytes is the NUL byte 0x00; and the two concrete scenarios of the claim hold
as stated. -/
theorem claim_C4_literal_exactness (ds payload rest : List Nat)
    (hne : ds ≠ []) (hall : ∀ c ∈ ds, isDigitB c = true)
    (hval : digitsVal ds ≤ 4294967295)
    (hlen : payload.length = digitsVal ds)
    (hbuf : payload ++ rest ≠ []) :
    ((∀ b ∈ payload, is_char8 b = true) →
      literal (123 :: (ds ++ 125 :: 13 :: 10 :: (payload ++ rest))) = .ok (rest, payload)) ∧
    ((∃ b ∈ payload, b = 0) →
      literal (123 :: (ds ++ 125 :: 13 :: 10 :: (payload ++ rest))) = .error .error) ∧
    literal (bytes "{3}\r\n123xxx") = .ok (bytes "xxx", bytes "123") ∧
    literal [123, 51, 125, 13, 10, 49, 0, 51] = .error .error := by
  have hlena : (payload ++ rest).length = digitsVal ds + rest.length := by
    simp [hlen]
  have hkey : literal (123 :: (ds ++ 125 :: 13 :: 10 :: (payload ++ rest))) =
      (if payload.all is_char8 then .ok (rest, payload) else .error .error) := by
    rw [literal_eval ds (payload ++ rest) hne hall hval, if_neg hbuf,
      if_neg (by omega), List.take_left' hlen, List.drop_left' hlen]
  refine ⟨?_, ?_, by decide, by decide⟩
  · intro hchar8
    rw [hkey, if_pos (List.all_eq_true.mpr hchar8)]
  · intro hnul
    obtain ⟨b, hbmem, hb0⟩ := hnul
    have hfalse : ¬ payload.all is_char8 = true := by
      intro hall8
      have := List.all_eq_true.mp hall8 b hbmem
      subst hb0
      simp [is_char8] at this
    rw [hkey, if_neg hfalse]

theorem claim_C4_witness :
    ((([51] : List Nat) ≠ [] ∧ (∀ c ∈ ([51] : List Nat), isDigitB c = true) ∧
        digitsVal [51] ≤ 4294967295 ∧ (bytes "123").length = digitsVal [51] ∧
        bytes "123" ++ bytes "xxx" ≠ [] ∧ (∀ b ∈ bytes "123", is_char8 b = true)) ∧
      literal (123 :: ([51] ++ 125 :: 13 :: 10 :: (bytes "123" ++ bytes "xxx"))) =
        .ok (bytes "xxx", bytes "123")) ∧
    ((([49, 0, 51] : List Nat).length = digitsVal [51] ∧ [49, 0, 51] ++ [] ≠ [] ∧
        (∃ b ∈ ([49, 0, 51] : List Nat), b = 0)) ∧
      literal (123 :: ([51] ++ 125 :: 13 :: 10 :: ([49, 0, 51] ++ []))) = .error .error) :=
  ⟨⟨by decide,
      (claim_C4_literal_exactness [51] (bytes "123") (bytes "xxx") (by decide) (by decide)
        (by decide) (by decide) (by decide)).1 (by decide)⟩,
    ⟨by decide,
      (claim_C4_literal_exactness [51] [49, 0, 51] [] (by decide) (by decide)
        (by decide) (by decide) (by decide)).2.1 (by decide)⟩⟩

/-- Claim C7: nz_number rejects, with the recoverable malformed outcome, any
input whose leading digit run has the value 0, and succeeds on any leading
digit run with a value in 1..=4294967295 followed by a non-digit, returning
the value and the rest of the input. -/
theorem claim_C7_nz_number (ds : List Nat) (b : Nat) (r : List Nat)
    (hne : ds ≠ []) (hall : ∀ c ∈ ds, isDigitB c = true) (hb : isDigitB b = false) :
    (digitsVal ds = 0 → nz_number (ds ++ b :: r) = .error .error) ∧
    (1 ≤ digitsVal ds → digitsVal ds ≤ 4294967295 →
      nz_number (ds ++ b :: r) = .ok (b :: r, digitsVal ds)) := by
  have h := number_exact ds b r hne hall hb
  constructor
  · intro h0
    rw [nz_number, h, if_pos (by omega)]
    simp only [pseq]
    rw [if_pos h0]
  · intro h1 h2
    rw [nz_number, h, if_pos h2]
    simp only [pseq]
    rw [if_neg (by omega)]

theorem claim_C7_witness :
    ((bytes "0" ≠ [] ∧ (∀ c ∈ bytes "0", isDigitB c = true) ∧ isDigitB 63 = false ∧
        digitsVal (bytes "0") = 0) ∧
      nz_number (bytes "0" ++ 63 :: []) = .error .error) ∧
    ((bytes "55" ≠ [] ∧ (∀ c ∈ bytes "55", isDigitB c = true) ∧
        1 ≤ digitsVal (bytes "55") ∧ digitsVal (bytes "55") ≤ 4294967295) ∧
      nz_number (bytes "55" ++ 63 :: []) = .ok (63 :: [], digitsVal (bytes "55"))) :=
  ⟨⟨by decide,
      (claim_C7_nz_number (bytes "0") 63 [] (by decide) (by decide) (by decide)).1 (by decide)⟩,
    ⟨by decide,
      (claim_C7_nz_number (bytes "55") 63 [] (by decide) (by decide) (by decide)).2
        (by decide) (by decide)⟩⟩

/-- Claim C10: a leading maximal digit run whose value exceeds u32::MAX makes
number fail with the recoverable malformed outcome (no wrapping, no
truncation of the run), and nz_number inherits the same rejection. -/
theorem claim_C10_number_overflow (ds : List Nat) (b : Nat) (r : List Nat)
    (hne : ds ≠ []) (hall : ∀ c ∈ ds, isDigitB c = true) (hb : isDigitB b = false)
    (hover : 4294967295 < digitsVal ds) :
    number (ds ++ b :: r) = .error .error ∧ nz_number (ds ++ b :: r) = .error .error := by
  have h := number_exact ds b r hne hall hb
  rw [if_neg (by omega)] at h
  exact ⟨h, by rw [nz_number, h]; rfl⟩

theorem claim_C10_witness :
    (bytes "4294967296" ≠ [] ∧ (∀ c ∈ bytes "4294967296", isDigitB c = true) ∧
      isDigitB 63 = false ∧ 4294967295 < digitsVal (bytes "4294967296")) ∧
    number (bytes "4294967296" ++ 63 :: []) = .error .error ∧
    nz_number (bytes "4294967296" ++ 63 :: []) = .error .error :=
  ⟨by decide,
    claim_C10_number_overflow (bytes "4294967296") 63 [] (by decide) (by decide)
      (by decide) (by decide)⟩

theorem escapedConsumed_encode (s : List Nat) (h : ∀ c ∈ s, is_text_char c = true) :
    ∀ rest, escapedConsumed (escape_quoted s ++ 34 :: rest) = .ok (escape_quoted s).length := by
  induction s with
  | nil =>
    intro rest
    have h34 : is_any_text_char_except_quoted_specials 34 = false := by decide
    simp only [escape_quoted, List.nil_append, List.length_nil]
    rw [escapedConsumed.eq_def]
    simp [h34]
  | cons a s ih =>
    intro rest
    have ha : is_text_char a = true := h a (by simp)
    have ih2 := ih (fun c hc => h c (by simp [hc]))
    by_cases hq : is_quoted_specials a = true
    · have hesc : escape_quoted (a :: s) = 92 :: a :: escape_quoted s := by
        simp [escape_quoted, hq]
      have h92 : is_any_text_char_except_quoted_specials 92 = false := by decide
      have hor : (a == 92 || a == 34) = true := by
        simp only [is_quoted_specials] at hq
        rcases Bool.or_eq_true_iff.mp hq with h' | h' <;> simp [h']
      rw [hesc]
      rw [List.cons_append, List.cons_append, escapedConsumed.eq_def]
      simp only [h92, Bool.false_eq_true, if_false, if_pos rfl, hor, if_true, ih2]
      simp [Except.map, List.length_cons]
    · have hq' : is_quoted_specials a = false := by
        cases hqv : is_quoted_specials a
        · rfl
        · exact absurd hqv hq
      have hesc : escape_quoted (a :: s) = a :: escape_quoted s := by
        simp [escape_quoted, hq']
      have hany : is_any_text_char_except_quoted_specials a = true := by
        simp [is_any_text_char_except_quoted_specials, ha, hq']
      rw [hesc, List.cons_append, escapedConsumed.eq_def]
      simp only [hany, if_true, ih2]
      simp [Except.map, List.length_cons]

theorem escape_quoted_nil_iff (s : List Nat) : escape_quoted s = [] ↔ s = [] := by
  cases s with
  | nil => simp [escape_quoted]
  | cons a s =>
    constructor
    · intro h
      by_cases hq : is_quoted_specials a = true
      · simp [escape_quoted, hq] at h
      · simp [escape_quoted, hq] at h
    · intro h; cases h

theorem unescape_escape (s : List Nat) : unescape_quoted (escape_quoted s) = s := by
  induction s with
  | nil => rfl
  | cons a s ih =>
    by_cases hq : is_quoted_specials a = true
    · have hesc : escape_quoted (a :: s) = 92 :: a :: escape_quoted s := by
        simp [escape_quoted, hq]
      rw [hesc, unescape_quoted]
      simp [ih]
    · have hq' : is_quoted_specials a = false := by
        cases hqv : is_quoted_specials a
        · rfl
        · exact absurd hqv hq
      have hne : a ≠ 92 := by
        intro h; subst h; simp [is_quoted_specials] at hq'
      have hesc : escape_quoted (a :: s) = a :: escape_quoted s := by
        simp [escape_quoted, hq']
      rw [hesc]
      cases hes : escape_quoted s with
      | nil =>
        have : s = [] := (escape_quoted_nil_iff s).mp hes
        subst this
        rfl
      | cons d X =>
        rw [unescape_quoted]
        rw [if_neg hne, ← hes, ih]

/-- Claim C2: for every legal quoted-string content (TEXT-CHARs, with
arbitrary occurrences of the two quoted-specials), parsing the quoted-string
encoding returns exactly the original content: the parser replaces each
escape pair by its literal character, undoing the escapes the encoder
inserted, and the remainder after the closing DQUOTE is untouched. -/
theorem claim_C2_quoted_roundtrip (s rest : List Nat)
    (h : ∀ c ∈ s, is_text_char c = true) :
    quoted (encode_quoted s ++ rest) = .ok (rest, s) := by
  have hform : encode_quoted s ++ rest = 34 :: (escape_quoted s ++ 34 :: rest) := by
    simp [encode_quoted]
  rw [hform, quoted]
  simp only [if_pos rfl, escapedConsumed_encode s h rest]
  rw [List.drop_left, List.take_left]
  simp [unescape_escape]

theorem claim_C2_witness :
    (∀ c ∈ bytes "a\"b\\c", is_text_char c = true) ∧
    quoted (encode_quoted (bytes "a\"b\\c") ++ bytes "???") =
      .ok (bytes "???", bytes "a\"b\\c") :=
  ⟨by decide, claim_C2_quoted_roundtrip (bytes "a\"b\\c") (bytes "???") (by decide)⟩

theorem sepJoin_length_ge : ∀ ns : List (List Nat), ns.length ≤ (sepJoin ns).length
  | [] => Nat.le_refl 0
  | nm :: ns => by
    simp only [sepJoin, List.length_cons, List.length_append]
    have := sepJoin_length_ge ns
    omega

theorem sepJoin_head (ns : List (List Nat)) (rest : List Nat) (p : Nat → Bool)
    (hp32 : p 32 = false) (hp41 : p 41 = false) :
    ∃ b r, sepJoin ns ++ 41 :: rest = b :: r ∧ p b = false := by
  cases ns with
  | nil => exact ⟨41, rest, by simp [sepJoin], hp41⟩
  | cons nm ns => exact ⟨32, nm ++ sepJoin ns ++ 41 :: rest, by simp [sepJoin], hp32⟩

theorem pseq_ok {α β : Type} (rem : List Nat) (a : α) (f : List Nat → α → PRes β) :
    pseq (.ok (rem, a)) f = f rem a := rfl

theorem pseq_error {α β : Type} (e : PErr) (f : List Nat → α → PRes β) :
    pseq (.error e) f = .error e := rfl

theorem pmap_ok {α β : Type} (rem : List Nat) (a : α) (f : α → β) :
    pmap (.ok (rem, a)) f = .ok (rem, f a) := rfl

theorem orElse2_ok {α : Type} (rem : List Nat) (a : α) (f : Unit → PRes α) :
    orElse2 (.ok (rem, a)) f = .ok (rem, a) := rfl

theorem sepTokens_spec (p : Nat → Bool) (hp32 : p 32 = false) (hp41 : p 41 = false) :
    ∀ (ns : List (List Nat)) (fuel : Nat) (acc : List (List Nat)) (rest : List Nat),
      (∀ nm ∈ ns, nm ≠ [] ∧ ∀ c ∈ nm, p c = true) → ns.length ≤ fuel →
      sepTokens p fuel (sepJoin ns ++ 41 :: rest) acc = .ok (rest, acc.reverse ++ ns) := by
  intro ns
  induction ns with
  | nil =>
    intro fuel acc rest _ _
    simp only [sepJoin, List.nil_append]
    cases fuel <;> simp [sepTokens]
  | cons nm ns ih =>
    intro fuel acc rest hwf hfuel
    obtain ⟨hnm, hnmall⟩ := hwf nm (by simp)
    cases fuel with
    | zero => simp at hfuel
    | succ f =>
      obtain ⟨b, r, hbr, hpb⟩ := sepJoin_head ns rest p hp32 hp41
      have hrw : sepJoin (nm :: ns) ++ 41 :: rest = 32 :: (nm ++ b :: r) := by
        simp [sepJoin, ← hbr]
      rw [hrw, sepTokens]
      rw [take_while1P_exact p nm b r hnm hnmall hpb]
      simp only [pseq]
      rw [← hbr, ih f (nm :: acc) rest (fun x hx => hwf x (by simp [hx])) (by simpa using hfuel)]
      simp

theorem header_list_exact (n1 : List Nat) (ns : List (List Nat)) (rest : List Nat)
    (hn1 : n1 ≠ []) (hn1all : ∀ c ∈ n1, is_astring_char c = true)
    (hns : ∀ nm ∈ ns, nm ≠ [] ∧ ∀ c ∈ nm, is_astring_char c = true) :
    header_list (40 :: (n1 ++ (sepJoin ns ++ 41 :: rest))) = .ok (rest, n1 :: ns) := by
  have h40 : tagP [40] (40 :: (n1 ++ (sepJoin ns ++ 41 :: rest))) =
      .ok (n1 ++ (sepJoin ns ++ 41 :: rest), ()) := by simp [tagP]
  obtain ⟨b, r, hbr, hpb⟩ := sepJoin_head ns rest is_astring_char (by decide) (by decide)
  have htw : take_while1P is_astring_char (n1 ++ (sepJoin ns ++ 41 :: rest)) =
      .ok (sepJoin ns ++ 41 :: rest, n1) := by
    rw [hbr, take_while1P_exact is_astring_char n1 b r hn1 hn1all hpb, ← hbr]
  have hfuel : ns.length ≤ (sepJoin ns ++ 41 :: rest).length := by
    have := sepJoin_length_ge ns
    simp only [List.length_append, List.length_cons]
    omega
  rw [header_list, h40, pseq_ok, htw, pseq_ok,
    sepTokens_spec is_astring_char (by decide) (by decide) ns _ [n1] rest hns hfuel]
  simp

/-- Claim C8: on input consisting of HEADER.FIELDS.NOT, a space and a header
list, section_msgtext selects the HeaderFieldsNot branch (the alternative
tried before HEADER.FIELDS and HEADER), parsing the whole list and leaving
exactly the bytes after the closing parenthesis; no dangling `.NOT` is ever
left in the remainder. -/
theorem claim_C8_section_longest_match (n1 : List Nat) (ns : List (List Nat)) (rest : List Nat)
    (hn1 : n1 ≠ []) (hn1all : ∀ c ∈ n1, is_astring_char c = true)
    (hns : ∀ nm ∈ ns, nm ≠ [] ∧ ∀ c ∈ nm, is_astring_char c = true) :
    section_msgtext
        (bytes "HEADER.FIELDS.NOT" ++ 32 :: 40 :: (n1 ++ (sepJoin ns ++ 41 :: rest))) =
      .ok (rest, PartSpecifier.headerFieldsNot (n1 :: ns)) := by
  have hsp : spP (32 :: 40 :: (n1 ++ (sepJoin ns ++ 41 :: rest))) =
      .ok (40 :: (n1 ++ (sepJoin ns ++ 41 :: rest)), ()) := by simp [spP, tagP]
  rw [section_msgtext, tag_no_caseP_exact, pseq_ok, hsp, pseq_ok,
    header_list_exact n1 ns rest hn1 hn1all hns, pseq_ok, orElse2_ok]

theorem claim_C8_witness :
    (bytes "SUBJECT" ≠ [] ∧ (∀ c ∈ bytes "SUBJECT", is_astring_char c = true) ∧
      (∀ nm ∈ ([] : List (List Nat)), nm ≠ [] ∧ ∀ c ∈ nm, is_astring_char c = true)) ∧
    section_msgtext
        (bytes "HEADER.FIELDS.NOT" ++ 32 :: 40 :: (bytes "SUBJECT" ++ (sepJoin [] ++ 41 :: bytes " rest"))) =
      .ok (bytes " rest", PartSpecifier.headerFieldsNot [bytes "SUBJECT"]) :=
  ⟨by decide,
    claim_C8_section_longest_match (bytes "SUBJECT") [] (bytes " rest") (by decide) (by decide)
      (by decide)⟩

/-- Claim C1 (code defect evidence): the documented FETCH data item
`FLAGS (\Seen)` parses to the Flags item, but serializing that item emits
only the parenthesized list, dropping the FLAGS item name that every other
supported item includes; the serialized FETCH line therefore embeds a bare
`(\Seen)`, which no data-item alternative can parse, so re-parsing the
encoder output cannot return a value equal to the parsed one and the
round-trip equality asserted by the fuzz harness fails. -/
theorem claim_C1_fetch_flags_roundtrip_broken :
    msg_att_item (bytes "FLAGS (\\Seen)") = .ok ([], .flags [bytes "\\Seen"]) ∧
    serializeDataItem (.flags [bytes "\\Seen"]) = .ok (bytes "(\\Seen)") ∧
    serializeResponse (.data (.fetch 1 [.flags [bytes "\\Seen"]])) =
      .ok (bytes "* 1 FETCH ((\\Seen))\r\n") ∧
    msg_att_item (bytes "(\\Seen)") = .error .error := by decide

/-- Claim C5 counterexample: encoding an Envelope data item does not produce
a recoverable Unsupported error value: the serialize arm is an
unimplemented!() stub, so the call diverges with the "not implemented" panic
(`SerErr.notImplemented` embeds exactly that panic; the signature
`fn serialize(&self) -> Vec<u8>` has no error channel to return through). -/
theorem claim_C5_counterexample :
    serializeDataItem (.envelope .mk) = .error SerErr.notImplemented := by decide

/-- Claim C5 as amended: encoding a DataItemResponse whose variant uses an
unimplemented sub-grammar (Body, BodyExt, BodyStructure, Envelope,
InternalDate) diverges through the not-implemented stub, emitting no partial
or incorrect bytes; for the supported variants (Flags, Rfc822, Rfc822Header,
Rfc822Size, Rfc822Text, Uid) encoding is total and always yields bytes. -/
theorem claim_C5_serialize_support :
    (∀ st, serializeDataItem (.body st) = .error .notImplemented) ∧
    (∀ sec origin data, serializeDataItem (.bodyExt sec origin data) = .error .notImplemented) ∧
    (∀ st, serializeDataItem (.bodyStructure st) = .error .notImplemented) ∧
    (∀ env, serializeDataItem (.envelope env) = .error .notImplemented) ∧
    (∀ dt, serializeDataItem (.internalDate dt) = .error .notImplemented) ∧
    (∀ fs, ∃ out, serializeDataItem (.flags fs) = .ok out) ∧
    (∀ ns, ∃ out, serializeDataItem (.rfc822 ns) = .ok out) ∧
    (∀ ns, ∃ out, serializeDataItem (.rfc822Header ns) = .ok out) ∧
    (∀ n, ∃ out, serializeDataItem (.rfc822Size n) = .ok out) ∧
    (∀ ns, ∃ out, serializeDataItem (.rfc822Text ns) = .ok out) ∧
    (∀ n, ∃ out, serializeDataItem (.uid n) = .ok out) :=
  ⟨fun _ => rfl, fun _ _ _ => rfl, fun _ => rfl, fun _ => rfl, fun _ => rfl,
    fun _ => ⟨_, rfl⟩, fun _ => ⟨_, rfl⟩, fun _ => ⟨_, rfl⟩, fun _ => ⟨_, rfl⟩,
    fun _ => ⟨_, rfl⟩, fun _ => ⟨_, rfl⟩⟩

/-- Claim C6 counterexample: the builder Status::ok accepts the empty text
without any validation, returning an ordinary value that stores the empty
text and even serializes (there is no InvalidValue outcome anywhere in the
builders). -/
theorem claim_C6_counterexample :
    statusOk none none [] = Status.ok none none [] ∧
    serializeStatus (statusOk none none []) = bytes "* OK \r\n" :=
  ⟨rfl, by decide⟩

/-- Claim C6 as amended: the Status builders perform no validation at all:
for every text, the empty text included, they succeed and store the given
tag, code and text unchanged (and the greeting builder is the untagged OK
form). -/
theorem claim_C6_builders_store_unchanged :
    ∀ (tag : Option WireName) (code : Option Code) (text : List Nat),
      ((statusOk tag code text).tagOf = tag ∧ (statusOk tag code text).codeOf = code ∧
        (statusOk tag code text).textOf = text) ∧
      ((statusNo tag code text).tagOf = tag ∧ (statusNo tag code text).codeOf = code ∧
        (statusNo tag code text).textOf = text) ∧
      ((statusBad tag code text).tagOf = tag ∧ (statusBad tag code text).codeOf = code ∧
        (statusBad tag code text).textOf = text) ∧
      ((statusPreauth code text).tagOf = none ∧ (statusPreauth code text).codeOf = code ∧
        (statusPreauth code text).textOf = text) ∧
      ((statusBye code text).tagOf = none ∧ (statusBye code text).codeOf = code ∧
        (statusBye code text).textOf = text) ∧
      ((statusGreeting code text).tagOf = none ∧ (statusGreeting code text).codeOf = code ∧
        (statusGreeting code text).textOf = text) :=
  fun _ _ _ =>
    ⟨⟨rfl, rfl, rfl⟩, ⟨rfl, rfl, rfl⟩, ⟨rfl, rfl, rfl⟩, ⟨rfl, rfl, rfl⟩,
      ⟨rfl, rfl, rfl⟩, ⟨rfl, rfl, rfl⟩⟩

/-- Claim C9: Continuation::basic with empty text normalizes the text to the
single placeholder character `.` instead of rejecting the value, for every
code: the code-less empty continuation serializes to exactly `+ .\r\n` and
an empty continuation with a code serializes to `+ [<code>] .\r\n`; with any
non-empty text the value is stored unchanged and serializes to
`+ <text>\r\n`, or `+ [<code>] <text>\r\n` when a code is present. -/
theorem claim_C9_continuation_normalization (code : Option Code) (text : List Nat)
    (hne : text ≠ []) :
    (∀ c : Option Code, continuationBasic c [] = Continuation.basic c (bytes ".")) ∧
    serializeContinuation (continuationBasic none []) = bytes "+ .\r\n" ∧
    (∀ c : Code, serializeContinuation (continuationBasic (some c) []) =
      bytes "+ [" ++ codeDisplay c ++ bytes "] " ++ bytes "." ++ [13, 10]) ∧
    continuationBasic code text = Continuation.basic code text ∧
    serializeContinuation (continuationBasic code text) =
      (match code with
       | some c => bytes "+ [" ++ codeDisplay c ++ bytes "] " ++ text ++ [13, 10]
       | none => bytes "+ " ++ text ++ [13, 10]) := by
  refine ⟨fun c => rfl, by decide, fun c => rfl, ?_, ?_⟩
  · rw [continuationBasic, if_neg hne]
  · rw [continuationBasic, if_neg hne]
    cases code <;> rfl

theorem claim_C9_witness :
    (bytes "hello" ≠ []) ∧
    serializeContinuation (continuationBasic (some Code.readWrite) []) =
      bytes "+ [READ-WRITE] .\r\n" ∧
    serializeContinuation (continuationBasic (some Code.readWrite) (bytes "hello")) =
      bytes "+ [READ-WRITE] hello\r\n" :=
  ⟨by decide,
    ((claim_C9_continuation_normalization none (bytes "hello") (by decide)).2.2.1
        Code.readWrite).trans (by decide),
    ((claim_C9_continuation_normalization (some Code.readWrite) (bytes "hello")
        (by decide)).2.2.2.2).trans (by decide)⟩
